import Mathlib

/-!
Shallow embedding of the NV2A PGRAPH primitive index rewrite engine
(`hw/xbox/nv2a/pgraph/prim_rewrite.c` together with its header) and of the
Vulkan buffer-set manager (`hw/xbox/nv2a/pgraph/vk/buffer.c`).

Machine integers are modelled as `Nat`; vertex indices are 32-bit, so the
implicit sequential index computation `base + i` is reduced modulo `2^32`
exactly where the C `uint32_t` addition wraps.  C `for` loops are modelled as
structurally recursive functions on a fuel counter that starts at an upper
bound of the iteration count (the loop index strictly increases by at least
one per iteration, so `count` iterations always suffice); the loop condition
is re-tested every iteration exactly as in the source.
-/

namespace NV2A

/-- The primitive topologies handled by the rewrite engine
(`enum ShaderPrimitiveMode` from `vsh_regs.h`, restricted to the ten
constructors the rewrite code dispatches on). -/
inductive ShaderPrimitiveMode where
  | PRIM_TYPE_POINTS
  | PRIM_TYPE_LINES
  | PRIM_TYPE_LINE_LOOP
  | PRIM_TYPE_LINE_STRIP
  | PRIM_TYPE_TRIANGLES
  | PRIM_TYPE_TRIANGLE_STRIP
  | PRIM_TYPE_TRIANGLE_FAN
  | PRIM_TYPE_QUADS
  | PRIM_TYPE_QUAD_STRIP
  | PRIM_TYPE_POLYGON
  deriving DecidableEq, Repr, Fintype

/-- Polygon fill modes (`enum ShaderPolygonMode` from `vsh_regs.h`). -/
inductive ShaderPolygonMode where
  | POLY_MODE_FILL
  | POLY_MODE_POINT
  | POLY_MODE_LINE
  deriving DecidableEq, Repr, Fintype

open ShaderPrimitiveMode ShaderPolygonMode

/-- `struct PrimAssemblyState` from `prim_rewrite.h`. -/
structure PrimAssemblyState where
  primitive_mode : ShaderPrimitiveMode
  polygon_mode : ShaderPolygonMode
  last_provoking : Bool
  flat_shading : Bool
  deriving DecidableEq, Repr, Fintype

/-- `static inline bool needs_rewrite(PrimAssemblyState mode)`. -/
def needs_rewrite (mode : PrimAssemblyState) : Bool :=
  match mode.primitive_mode with
  | PRIM_TYPE_POINTS => false
  | PRIM_TYPE_LINES => mode.last_provoking && mode.flat_shading
  | PRIM_TYPE_TRIANGLES => mode.last_provoking && mode.flat_shading
  | _ => true

/-- `static unsigned int max_output_indices(mode, polygon_mode, input_count)`.
`PRIM_TYPE_POINTS` takes the `default: return 0` branch of the C switch. -/
def max_output_indices (mode : ShaderPrimitiveMode) (polygon_mode : ShaderPolygonMode)
    (input_count : Nat) : Nat :=
  match mode with
  | PRIM_TYPE_LINES => input_count
  | PRIM_TYPE_LINE_STRIP => if input_count >= 2 then (input_count - 1) * 2 else 0
  | PRIM_TYPE_LINE_LOOP => if input_count >= 2 then input_count * 2 else 0
  | PRIM_TYPE_TRIANGLES => input_count
  | PRIM_TYPE_TRIANGLE_STRIP => if input_count >= 3 then (input_count - 2) * 3 else 0
  | PRIM_TYPE_TRIANGLE_FAN => if input_count >= 3 then (input_count - 2) * 3 else 0
  | PRIM_TYPE_POLYGON =>
      if polygon_mode = POLY_MODE_LINE then
        if input_count >= 2 then input_count * 2 else 0
      else
        if input_count >= 3 then (input_count - 2) * 3 else 0
  | PRIM_TYPE_QUADS =>
      if polygon_mode = POLY_MODE_LINE then (input_count / 4) * 8
      else (input_count / 4) * 6
  | PRIM_TYPE_QUAD_STRIP =>
      if polygon_mode = POLY_MODE_LINE then
        if input_count >= 4 then ((input_count - 2) / 2) * 8 else 0
      else
        if input_count >= 4 then ((input_count - 2) / 2) * 6 else 0
  | PRIM_TYPE_POINTS => 0

/-- `static inline uint32_t idx_at(const uint32_t *idx, unsigned int i, uint32_t base)`:
`idx ? idx[i] : base + i`, where the addition is `uint32_t` and wraps mod `2^32`.
`none` models a `NULL` index pointer. -/
def idx_at (idx : Option (List Nat)) (i : Nat) (base : Nat) : Nat :=
  match idx with
  | some l => l.getD i 0
  | none => (base + i) % 4294967296

/-- `static inline void emit_line(...)`: emission is modelled by the list of
indices the call appends to the output. -/
def emit_line (a b : Nat) : List Nat := [a, b]

/-- `static inline void emit_line_pv(...)`: place provoking vertex `p` at index 0. -/
def emit_line_pv (a b p : Nat) : List Nat :=
  if p = a then emit_line a b else emit_line b a

/-- `static inline void emit_tri(...)`. -/
def emit_tri (a b c : Nat) : List Nat := [a, b, c]

/-- `static inline void emit_tri_pv(...)`: rotate provoking vertex `p` to index 0,
preserving the winding of `(a, b, c)`. -/
def emit_tri_pv (a b c p : Nat) : List Nat :=
  if p = a then emit_tri a b c
  else if p = b then emit_tri b c a
  else emit_tri c a b

/-- Fuel-indexed model of the C loop
`for (unsigned int i = start; i + look < count; i += step + 1) emit(body i)`.
The fuel only bounds the number of iterations; the loop condition
`i + look < count` is re-tested each iteration as in the source. -/
def for_emit_go (count look step : Nat) (body : Nat → List Nat) :
    Nat → Nat → List Nat
  | 0, _ => []
  | fuel + 1, i =>
      if i + look < count then body i ++ for_emit_go count look step body fuel (i + step + 1)
      else []

/-- The loop `for (unsigned int i = 0; i + look < count; i += step + 1)`:
since `i` grows by at least 1 per iteration, `count` units of fuel always
suffice for the loop to run to completion. -/
def for_emit (count look step : Nat) (body : Nat → List Nat) : List Nat :=
  for_emit_go count look step body count 0

/-- `static void rewrite_lines(...)`: loop `i += 2` while `i + 1 < count`. -/
def rewrite_lines (idx : Option (List Nat)) (base count : Nat)
    (last_provoking : Bool) : List Nat :=
  for_emit count 1 1 (fun i =>
    let v0 := idx_at idx i base
    let v1 := idx_at idx (i + 1) base
    let pv := if last_provoking then v1 else v0
    emit_line_pv v0 v1 pv)

/-- `static void rewrite_line_strip(...)`: loop `i++` while `i + 1 < count`. -/
def rewrite_line_strip (idx : Option (List Nat)) (base count : Nat)
    (last_provoking : Bool) : List Nat :=
  for_emit count 1 0 (fun i =>
    let v0 := idx_at idx i base
    let v1 := idx_at idx (i + 1) base
    let pv := if last_provoking then v1 else v0
    emit_line_pv v0 v1 pv)

/-- `static void rewrite_line_loop(...)`: the strip loop plus the closing line
from the last vertex back to the first; empty when `count < 2`. -/
def rewrite_line_loop (idx : Option (List Nat)) (base count : Nat)
    (last_provoking : Bool) : List Nat :=
  if count < 2 then []
  else
    (for_emit count 1 0 (fun i =>
      let v0 := idx_at idx i base
      let v1 := idx_at idx (i + 1) base
      let pv := if last_provoking then v1 else v0
      emit_line_pv v0 v1 pv)) ++
    (let v_last := idx_at idx (count - 1) base
     let v_first := idx_at idx 0 base
     let pv := if last_provoking then v_first else v_last
     emit_line_pv v_last v_first pv)

/-- `static void rewrite_triangles(...)`: loop `i += 3` while `i + 2 < count`. -/
def rewrite_triangles (idx : Option (List Nat)) (base count : Nat)
    (last_provoking : Bool) : List Nat :=
  for_emit count 2 2 (fun i =>
    let v0 := idx_at idx i base
    let v1 := idx_at idx (i + 1) base
    let v2 := idx_at idx (i + 2) base
    let pv := if last_provoking then v2 else v0
    emit_tri_pv v0 v1 v2 pv)

/-- `static void rewrite_triangle_strip(...)`: loop `i++` while `i + 2 < count`;
odd `i` swaps the first two vertices before the provoking-vertex rotation. -/
def rewrite_triangle_strip (idx : Option (List Nat)) (base count : Nat)
    (last_provoking : Bool) : List Nat :=
  for_emit count 2 0 (fun i =>
    let v0 := idx_at idx i base
    let v1 := idx_at idx (i + 1) base
    let v2 := idx_at idx (i + 2) base
    let pv := if last_provoking then v2 else v0
    if i % 2 = 1 then emit_tri_pv v1 v0 v2 pv else emit_tri_pv v0 v1 v2 pv)

/-- `static void rewrite_triangle_fan(...)`: hub at position 0; empty when
`count < 3`. -/
def rewrite_triangle_fan (idx : Option (List Nat)) (base count : Nat)
    (last_provoking : Bool) : List Nat :=
  if count < 3 then []
  else
    let hub := idx_at idx 0 base
    for_emit count 2 0 (fun i =>
      let v1 := idx_at idx (i + 1) base
      let v2 := idx_at idx (i + 2) base
      let pv := if last_provoking then v2 else v1
      emit_tri_pv hub v1 v2 pv)

/-- `static void rewrite_quads(...)`: loop `i += 4` while `i + 3 < count`;
each quad emits two triangles, with the diagonal depending on `flat_shading`. -/
def rewrite_quads (idx : Option (List Nat)) (base count : Nat)
    (flat_shading : Bool) : List Nat :=
  for_emit count 3 3 (fun i =>
    let v0 := idx_at idx i base
    let v1 := idx_at idx (i + 1) base
    let v2 := idx_at idx (i + 2) base
    let v3 := idx_at idx (i + 3) base
    if flat_shading then emit_tri v3 v0 v1 ++ emit_tri v3 v1 v2
    else emit_tri v0 v1 v2 ++ emit_tri v0 v2 v3)

/-- `static void rewrite_quads_line(...)`: each quad emits its outline as four
lines. -/
def rewrite_quads_line (idx : Option (List Nat)) (base count : Nat) : List Nat :=
  for_emit count 3 3 (fun i =>
    let v0 := idx_at idx i base
    let v1 := idx_at idx (i + 1) base
    let v2 := idx_at idx (i + 2) base
    let v3 := idx_at idx (i + 3) base
    emit_line v0 v1 ++ emit_line v1 v2 ++ emit_line v2 v3 ++ emit_line v3 v0)

/-- `static void rewrite_quad_strip(...)`: sliding window of 4 with stride 2;
empty when `count < 4`. -/
def rewrite_quad_strip (idx : Option (List Nat)) (base count : Nat)
    (flat_shading : Bool) : List Nat :=
  if count < 4 then []
  else
    for_emit count 3 1 (fun i =>
      let v0 := idx_at idx i base
      let v1 := idx_at idx (i + 1) base
      let v2 := idx_at idx (i + 2) base
      let v3 := idx_at idx (i + 3) base
      if flat_shading then emit_tri v3 v2 v0 ++ emit_tri v3 v0 v1
      else emit_tri v0 v1 v2 ++ emit_tri v2 v1 v3)

/-- `static void rewrite_quad_strip_line(...)`. -/
def rewrite_quad_strip_line (idx : Option (List Nat)) (base count : Nat) : List Nat :=
  if count < 4 then []
  else
    for_emit count 3 1 (fun i =>
      let v0 := idx_at idx i base
      let v1 := idx_at idx (i + 1) base
      let v2 := idx_at idx (i + 2) base
      let v3 := idx_at idx (i + 3) base
      emit_line v0 v1 ++ emit_line v1 v3 ++ emit_line v3 v2 ++ emit_line v2 v0)

/-- `static void rewrite_polygon(...)`: fan triangulation from vertex 0 with no
provoking-vertex rotation; empty when `count < 3`. -/
def rewrite_polygon (idx : Option (List Nat)) (base count : Nat) : List Nat :=
  if count < 3 then []
  else
    let hub := idx_at idx 0 base
    for_emit count 2 0 (fun i =>
      let v1 := idx_at idx (i + 1) base
      let v2 := idx_at idx (i + 2) base
      emit_tri hub v1 v2)

/-- `static void rewrite_polygon_line(...)`: outline with a closing line; empty
when `count < 2`. -/
def rewrite_polygon_line (idx : Option (List Nat)) (base count : Nat) : List Nat :=
  if count < 2 then []
  else
    (for_emit count 1 0 (fun i =>
      emit_line (idx_at idx i base) (idx_at idx (i + 1) base))) ++
    emit_line (idx_at idx (count - 1) base) (idx_at idx 0 base)

/-- `static void rewrite_indices(...)`: dispatch over the topology.  The
`PRIM_TYPE_POINTS` case is the C `default: assert(!"Unexpected primitive mode")`
branch, which the entry points never reach (it emits nothing). -/
def rewrite_indices (mode : PrimAssemblyState) (idx : Option (List Nat))
    (base num_indices : Nat) : List Nat :=
  match mode.primitive_mode with
  | PRIM_TYPE_LINES => rewrite_lines idx base num_indices mode.last_provoking
  | PRIM_TYPE_LINE_STRIP => rewrite_line_strip idx base num_indices mode.last_provoking
  | PRIM_TYPE_LINE_LOOP => rewrite_line_loop idx base num_indices mode.last_provoking
  | PRIM_TYPE_TRIANGLES => rewrite_triangles idx base num_indices mode.last_provoking
  | PRIM_TYPE_TRIANGLE_STRIP =>
      rewrite_triangle_strip idx base num_indices mode.last_provoking
  | PRIM_TYPE_TRIANGLE_FAN =>
      rewrite_triangle_fan idx base num_indices mode.last_provoking
  | PRIM_TYPE_QUADS =>
      if mode.polygon_mode = POLY_MODE_LINE then rewrite_quads_line idx base num_indices
      else rewrite_quads idx base num_indices mode.flat_shading
  | PRIM_TYPE_QUAD_STRIP =>
      if mode.polygon_mode = POLY_MODE_LINE then
        rewrite_quad_strip_line idx base num_indices
      else rewrite_quad_strip idx base num_indices mode.flat_shading
  | PRIM_TYPE_POLYGON =>
      if mode.polygon_mode = POLY_MODE_LINE then rewrite_polygon_line idx base num_indices
      else rewrite_polygon idx base num_indices
  | PRIM_TYPE_POINTS => []

/-- `struct PrimRewriteBuf`: the growable scratch buffer.  `data` models the
backing array contents; its length always equals `capacity`. -/
structure PrimRewriteBuf where
  data : List Nat
  capacity : Nat
  deriving DecidableEq, Repr

/-- `static void ensure_capacity(PrimRewriteBuf *buf, unsigned int needed)`:
grow to `MAX(needed, capacity * 2)` when insufficient.  `g_realloc` preserves
the existing prefix; the fresh tail is modelled as zeros. -/
def ensure_capacity (buf : PrimRewriteBuf) (needed : Nat) : PrimRewriteBuf :=
  if needed ≤ buf.capacity then buf
  else
    let newcap := max needed (buf.capacity * 2)
    { data := buf.data ++ List.replicate (newcap - buf.data.length) 0
      capacity := newcap }

/-- `struct PrimRewrite`: the result view.  `hasData` models whether the
`indices` pointer is non-`NULL`; `out` is the sequence of indices written
(`num_indices = out.length`). -/
structure PrimRewrite where
  hasData : Bool
  out : List Nat
  deriving DecidableEq, Repr

/-- `PrimRewrite pgraph_prim_rewrite_indexed(...)`: the explicit-index entry
point.  Returns the result view together with the scratch buffer after the
call (the emitted indices overwrite the front of the grown buffer). -/
def pgraph_prim_rewrite_indexed (buf : PrimRewriteBuf) (mode : PrimAssemblyState)
    (input_indices : List Nat) : PrimRewrite × PrimRewriteBuf :=
  if ¬ needs_rewrite mode then (⟨false, []⟩, buf)
  else
    let num_input_indices := input_indices.length
    let max_output :=
      max_output_indices mode.primitive_mode mode.polygon_mode num_input_indices
    if max_output = 0 then (⟨false, []⟩, buf)
    else
      let buf2 := ensure_capacity buf max_output
      let out := rewrite_indices mode (some input_indices) 0 num_input_indices
      (⟨true, out⟩, { buf2 with data := out ++ buf2.data.drop out.length })

/-- `PrimRewrite pgraph_prim_rewrite_ranges(...)`: the ranges entry point.
`starts` and `counts` are the two parallel arrays; the loops run over
`num_ranges = counts.length` entries, and a range with `count = 0` is skipped
(`continue`).  Each range is rewritten with a `NULL` index pointer and
`base = starts[r]`, appending into the same result. -/
def pgraph_prim_rewrite_ranges (buf : PrimRewriteBuf) (mode : PrimAssemblyState)
    (starts counts : List Nat) : PrimRewrite × PrimRewriteBuf :=
  if ¬ needs_rewrite mode then (⟨false, []⟩, buf)
  else
    let total_max_output :=
      (counts.map (fun c =>
        max_output_indices mode.primitive_mode mode.polygon_mode c)).sum
    if total_max_output = 0 then (⟨false, []⟩, buf)
    else
      let buf2 := ensure_capacity buf total_max_output
      let out :=
        ((starts.zip counts).map (fun sc =>
          if sc.2 = 0 then [] else rewrite_indices mode none sc.1 sc.2)).flatten
      (⟨true, out⟩, { buf2 with data := out ++ buf2.data.drop out.length })

/-- The explicit expansion of a sequential range `(start, count)` into the
index sequence `start .. start + count - 1`, with 32-bit wraparound as in
`idx_at`. -/
def range_expansion (start count : Nat) : List Nat :=
  (List.range count).map (fun i => (start + i) % 4294967296)

/-!
Buffer-set manager, from `hw/xbox/nv2a/pgraph/vk/buffer.c`.

Byte offsets and sizes are `Nat` (the C types are `VkDeviceSize` /
`VkDeviceAddress`, unsigned 64-bit; none of the verified properties involve
64-bit overflow).  QEMU's `ROUND_UP(n, d)` macro is the power-of-two
bit-masking form `((n) + (d) - 1) & -(d)`; for `d > 0` a power of two this
equals `(n + d - 1) / d * d`, which is how it is modelled here.
-/

/-- QEMU `ROUND_UP(n, d)`. -/
def ROUND_UP (n d : Nat) : Nat := (n + d - 1) / d * d

/-- `struct StorageBuffer`, restricted to the fields the bump allocator reads
and writes: total byte size and current bump offset.  (`mapped` is assumed
non-`NULL`, as asserted by `pgraph_vk_append_to_buffer`.) -/
structure StorageBuffer where
  buffer_size : Nat
  buffer_offset : Nat
  deriving DecidableEq, Repr

/-- `bool pgraph_vk_buffer_has_space_for(pg, index, size, alignment)`. -/
def pgraph_vk_buffer_has_space_for (b : StorageBuffer) (size alignment : Nat) : Bool :=
  decide (ROUND_UP b.buffer_offset alignment + size ≤ b.buffer_size)

/-- The byte regions written by the copy loop of `pgraph_vk_append_to_buffer`,
as `(offset, size)` pairs: each iteration first rounds the bump offset up to
the alignment, then `memcpy`s the chunk there. -/
def append_writes (offset : Nat) (sizes : List Nat) (alignment : Nat) :
    List (Nat × Nat) :=
  match sizes with
  | [] => []
  | s :: rest =>
      let off := ROUND_UP offset alignment
      (off, s) :: append_writes (off + s) rest alignment

/-- The bump offset after the copy loop of `pgraph_vk_append_to_buffer`. -/
def append_final_offset (offset : Nat) (sizes : List Nat) (alignment : Nat) : Nat :=
  match sizes with
  | [] => offset
  | s :: rest => append_final_offset (ROUND_UP offset alignment + s) rest alignment

/-- `VkDeviceSize pgraph_vk_append_to_buffer(pg, index, data, sizes, count, alignment)`:
returns the starting offset (the pre-loop `ROUND_UP` of the bump offset), the
buffer with its advanced bump offset, and the list of written byte regions. -/
def pgraph_vk_append_to_buffer (b : StorageBuffer) (sizes : List Nat)
    (alignment : Nat) : Nat × StorageBuffer × List (Nat × Nat) :=
  (ROUND_UP b.buffer_offset alignment,
   { b with buffer_offset := append_final_offset b.buffer_offset sizes alignment },
   append_writes b.buffer_offset sizes alignment)

/-- Chunk regions laid out consecutively from `offset` with no padding in
between: the layout the specification describes for `append`. -/
def consecutive_writes (offset : Nat) (sizes : List Nat) : List (Nat × Nat) :=
  match sizes with
  | [] => []
  | s :: rest => (offset, s) :: consecutive_writes (offset + s) rest

/-!
Buffer-set creation (`pgraph_vk_init_buffers`) with injected resource
failures.  The Vulkan/VMA allocation and mapping calls are external; their
success or failure is supplied by a `FailureInjection`, and the state tracks,
per buffer role, whether the buffer is currently allocated
(`buffer`/`allocation` handles non-`NULL`) and mapped, plus whether the
upload-tracking bitmap is allocated.  Buffer byte sizes do not influence any
of these booleans and are omitted.
-/

/-- The fixed roster of storage buffers (`enum` indices `BUFFER_*`, in the
order of `buffer_names[]`). -/
inductive BufferRole where
  | BUFFER_STAGING_DST
  | BUFFER_STAGING_SRC
  | BUFFER_COMPUTE_DST
  | BUFFER_COMPUTE_SRC
  | BUFFER_INDEX
  | BUFFER_INDEX_STAGING
  | BUFFER_VERTEX_RAM
  | BUFFER_VERTEX_INLINE
  | BUFFER_VERTEX_INLINE_STAGING
  | BUFFER_UNIFORM
  | BUFFER_UNIFORM_STAGING
  deriving DecidableEq, Repr, Fintype

open BufferRole

/-- Creation order: the `for (i = 0; i < BUFFER_COUNT; i++)` loop. -/
def buffer_order : List BufferRole :=
  [BUFFER_STAGING_DST, BUFFER_STAGING_SRC, BUFFER_COMPUTE_DST, BUFFER_COMPUTE_SRC,
   BUFFER_INDEX, BUFFER_INDEX_STAGING, BUFFER_VERTEX_RAM, BUFFER_VERTEX_INLINE,
   BUFFER_VERTEX_INLINE_STAGING, BUFFER_UNIFORM, BUFFER_UNIFORM_STAGING]

/-- `int buffers_to_map[]` in `pgraph_vk_init_buffers`. -/
def buffers_to_map : List BufferRole :=
  [BUFFER_VERTEX_RAM, BUFFER_INDEX_STAGING, BUFFER_VERTEX_INLINE_STAGING,
   BUFFER_UNIFORM_STAGING]

/-- Allocation/mapping state of the buffer set. -/
structure VkBufState where
  allocated : BufferRole → Bool
  mapped : BufferRole → Bool
  bitmap : Bool

/-- Which external resource-provisioning calls fail
(`vmaCreateBuffer`, `vmaMapMemory`, `bitmap_new`). -/
structure FailureInjection where
  create_fails : BufferRole → Bool
  map_fails : BufferRole → Bool
  bitmap_fails : Bool

/-- `static void destroy_buffer(...)`: skips buffers whose handles are both
`VK_NULL_HANDLE`, otherwise destroys and nulls them. -/
def destroy_buffer (s : VkBufState) (r : BufferRole) : VkBufState :=
  if s.allocated r = false then s
  else { s with allocated := fun x => if x = r then false else s.allocated x }

/-- One iteration of the `fail:` clean-up loop: unmap the buffer if it is
mapped, then `destroy_buffer` it. -/
def fail_unwind_step (s : VkBufState) (r : BufferRole) : VkBufState :=
  let s1 :=
    if s.mapped r then { s with mapped := fun x => if x = r then false else s.mapped x }
    else s
  destroy_buffer s1 r

/-- The `fail:` label: clean up every buffer, then free the bitmap. -/
def fail_unwind (s : VkBufState) : VkBufState :=
  { buffer_order.foldl fail_unwind_step s with bitmap := false }

/-- The buffer-creation loop: create each buffer in order, stopping at the
first failure (`goto fail`). -/
def create_loop (inj : FailureInjection) : VkBufState → List BufferRole →
    VkBufState × Bool
  | s, [] => (s, true)
  | s, r :: rest =>
      if inj.create_fails r then (s, false)
      else create_loop inj
        { s with allocated := fun x => if x = r then true else s.allocated x } rest

/-- The mapping loop over `buffers_to_map`: `vmaMapMemory` each, stopping at
the first failure (`goto fail`). -/
def map_loop (inj : FailureInjection) : VkBufState → List BufferRole →
    VkBufState × Bool
  | s, [] => (s, true)
  | s, r :: rest =>
      if inj.map_fails r then (s, false)
      else map_loop inj
        { s with mapped := fun x => if x = r then true else s.mapped x } rest

/-- `bool pgraph_vk_init_buffers(NV2AState *d, Error **errp)`, starting from a
fresh (zeroed) renderer state.  The struct-literal assignments zero every
buffer's handles and `mapped` pointer; if `bitmap_new` fails the function
returns `false` directly (nothing allocated yet); a creation or mapping
failure jumps to `fail:`, which unwinds everything. -/
def pgraph_vk_init_buffers (inj : FailureInjection) : Bool × VkBufState :=
  let s0 : VkBufState := ⟨fun _ => false, fun _ => false, false⟩
  if inj.bitmap_fails then (false, s0)
  else
    let s1 : VkBufState := { s0 with bitmap := true }
    match create_loop inj s1 buffer_order with
    | (s2, false) => (false, fail_unwind s2)
    | (s2, true) =>
        match map_loop inj s2 buffers_to_map with
        | (s3, false) => (false, fail_unwind s3)
        | (s3, true) => (true, s3)

/-!
Auxiliary lemmas: loop iteration counts, output lengths, and congruence of
the rewrite functions in the index source.
-/

theorem iter_div_succ (m step : Nat) (hm : 1 ≤ m) :
    (m + step) / (step + 1) = (m - (step + 1) + step) / (step + 1) + 1 := by
  rw [Nat.div_eq_sub_div (Nat.succ_pos step) (by omega)]
  have h1 : m + step - (step + 1) = m - 1 := by omega
  rw [h1]
  rcases le_or_lt (step + 1) m with h | h
  · have : m - (step + 1) + step = m - 1 := by omega
    rw [this]
  · have h2 : m - (step + 1) + step = step := by omega
    rw [h2, Nat.div_eq_of_lt (by omega), Nat.div_eq_of_lt (by omega)]

theorem for_emit_go_length (count look step K : Nat) (body : Nat → List Nat)
    (hK : ∀ j, (body j).length = K) :
    ∀ fuel i, count ≤ i + fuel →
      (for_emit_go count look step body fuel i).length =
        K * ((count - look - i + step) / (step + 1)) := by
  intro fuel
  induction fuel with
  | zero =>
    intro i h
    have h1 : count - look - i = 0 := by omega
    rw [for_emit_go, h1, Nat.zero_add, Nat.div_eq_of_lt (by omega)]
    simp
  | succ n ih =>
    intro i h
    rw [for_emit_go]
    by_cases hc : i + look < count
    · rw [if_pos hc, List.length_append, hK, ih (i + step + 1) (by omega)]
      have hm : 1 ≤ count - look - i := by omega
      have h2 : count - look - (i + step + 1) = count - look - i - (step + 1) := by omega
      rw [h2, iter_div_succ (count - look - i) step hm, Nat.mul_add, Nat.mul_one]
      omega
    · rw [if_neg hc]
      have h1 : count - look - i = 0 := by omega
      rw [h1, Nat.zero_add, Nat.div_eq_of_lt (by omega)]
      simp

theorem for_emit_length (count look step K : Nat) (body : Nat → List Nat)
    (hK : ∀ j, (body j).length = K) :
    (for_emit count look step body).length =
      K * ((count - look + step) / (step + 1)) := by
  have := for_emit_go_length count look step K body hK count 0 (by omega)
  simpa [for_emit] using this

theorem for_emit_go_congr (count look step : Nat) (b1 b2 : Nat → List Nat)
    (h : ∀ i, i + look < count → b1 i = b2 i) :
    ∀ fuel i, for_emit_go count look step b1 fuel i =
      for_emit_go count look step b2 fuel i := by
  intro fuel
  induction fuel with
  | zero => intro i; rfl
  | succ n ih =>
    intro i
    rw [for_emit_go, for_emit_go]
    by_cases hc : i + look < count
    · rw [if_pos hc, if_pos hc, h i hc, ih]
    · rw [if_neg hc, if_neg hc]

theorem for_emit_congr (count look step : Nat) (b1 b2 : Nat → List Nat)
    (h : ∀ i, i + look < count → b1 i = b2 i) :
    for_emit count look step b1 = for_emit count look step b2 :=
  for_emit_go_congr count look step b1 b2 h count 0


theorem emit_line_pv_length (a b p : Nat) : (emit_line_pv a b p).length = 2 := by
  unfold emit_line_pv emit_line
  split <;> rfl

theorem emit_tri_pv_length (a b c p : Nat) : (emit_tri_pv a b c p).length = 3 := by
  unfold emit_tri_pv emit_tri
  split <;> (try rfl)
  split <;> rfl

/-- Closed form of the number of indices each decomposition rule emits, as a
function of `(topology, fillMode, inputCount)`. -/
def expected_output_count (mode : ShaderPrimitiveMode)
    (polygon_mode : ShaderPolygonMode) (n : Nat) : Nat :=
  match mode with
  | PRIM_TYPE_POINTS => 0
  | PRIM_TYPE_LINES => 2 * (n / 2)
  | PRIM_TYPE_LINE_STRIP => 2 * (n - 1)
  | PRIM_TYPE_LINE_LOOP => if n < 2 then 0 else 2 * n
  | PRIM_TYPE_TRIANGLES => 3 * (n / 3)
  | PRIM_TYPE_TRIANGLE_STRIP => 3 * (n - 2)
  | PRIM_TYPE_TRIANGLE_FAN => if n < 3 then 0 else 3 * (n - 2)
  | PRIM_TYPE_QUADS => (if polygon_mode = POLY_MODE_LINE then 8 else 6) * (n / 4)
  | PRIM_TYPE_QUAD_STRIP =>
      if n < 4 then 0
      else (if polygon_mode = POLY_MODE_LINE then 8 else 6) * ((n - 2) / 2)
  | PRIM_TYPE_POLYGON =>
      if polygon_mode = POLY_MODE_LINE then (if n < 2 then 0 else 2 * n)
      else (if n < 3 then 0 else 3 * (n - 2))

theorem rewrite_lines_length (idx : Option (List Nat)) (base count : Nat) (lp : Bool) :
    (rewrite_lines idx base count lp).length = 2 * (count / 2) := by
  unfold rewrite_lines
  rw [for_emit_length count 1 1 2 _ (fun j => emit_line_pv_length _ _ _)]
  omega

theorem rewrite_line_strip_length (idx : Option (List Nat)) (base count : Nat) (lp : Bool) :
    (rewrite_line_strip idx base count lp).length = 2 * (count - 1) := by
  unfold rewrite_line_strip
  rw [for_emit_length count 1 0 2 _ (fun j => emit_line_pv_length _ _ _)]
  omega

theorem rewrite_line_loop_length (idx : Option (List Nat)) (base count : Nat) (lp : Bool) :
    (rewrite_line_loop idx base count lp).length = if count < 2 then 0 else 2 * count := by
  unfold rewrite_line_loop
  by_cases h : count < 2
  · rw [if_pos h, if_pos h]; rfl
  · rw [if_neg h, if_neg h, List.length_append,
      for_emit_length count 1 0 2 _ (fun j => emit_line_pv_length _ _ _),
      emit_line_pv_length]
    omega

theorem rewrite_triangles_length (idx : Option (List Nat)) (base count : Nat) (lp : Bool) :
    (rewrite_triangles idx base count lp).length = 3 * (count / 3) := by
  unfold rewrite_triangles
  rw [for_emit_length count 2 2 3 _ (fun j => emit_tri_pv_length _ _ _ _)]
  omega

theorem rewrite_triangle_strip_length (idx : Option (List Nat)) (base count : Nat) (lp : Bool) :
    (rewrite_triangle_strip idx base count lp).length = 3 * (count - 2) := by
  unfold rewrite_triangle_strip
  rw [for_emit_length count 2 0 3 _ (fun j => ?_)]
  · omega
  · by_cases hj : j % 2 = 1 <;> simp [hj, emit_tri_pv_length]

theorem rewrite_triangle_fan_length (idx : Option (List Nat)) (base count : Nat) (lp : Bool) :
    (rewrite_triangle_fan idx base count lp).length = if count < 3 then 0 else 3 * (count - 2) := by
  unfold rewrite_triangle_fan
  by_cases h : count < 3
  · rw [if_pos h, if_pos h]; rfl
  · rw [if_neg h, if_neg h, for_emit_length count 2 0 3 _ (fun j => emit_tri_pv_length _ _ _ _)]
    omega

theorem rewrite_quads_length (idx : Option (List Nat)) (base count : Nat) (fs : Bool) :
    (rewrite_quads idx base count fs).length = 6 * (count / 4) := by
  unfold rewrite_quads
  rw [for_emit_length count 3 3 6 _ (fun j => ?_)]
  · omega
  · cases fs <;> rfl

theorem rewrite_quads_line_length (idx : Option (List Nat)) (base count : Nat) :
    (rewrite_quads_line idx base count).length = 8 * (count / 4) := by
  unfold rewrite_quads_line
  rw [for_emit_length count 3 3 8 _ (fun j => ?_)]
  · omega
  · rfl

theorem rewrite_quad_strip_length (idx : Option (List Nat)) (base count : Nat) (fs : Bool) :
    (rewrite_quad_strip idx base count fs).length =
      if count < 4 then 0 else 6 * ((count - 2) / 2) := by
  unfold rewrite_quad_strip
  by_cases h : count < 4
  · rw [if_pos h, if_pos h]; rfl
  · rw [if_neg h, if_neg h, for_emit_length count 3 1 6 _ (fun j => ?_)]
    · omega
    · cases fs <;> rfl

theorem rewrite_quad_strip_line_length (idx : Option (List Nat)) (base count : Nat) :
    (rewrite_quad_strip_line idx base count).length =
      if count < 4 then 0 else 8 * ((count - 2) / 2) := by
  unfold rewrite_quad_strip_line
  by_cases h : count < 4
  · rw [if_pos h, if_pos h]; rfl
  · rw [if_neg h, if_neg h, for_emit_length count 3 1 8 _ (fun j => ?_)]
    · omega
    · rfl

theorem rewrite_polygon_length (idx : Option (List Nat)) (base count : Nat) :
    (rewrite_polygon idx base count).length = if count < 3 then 0 else 3 * (count - 2) := by
  unfold rewrite_polygon
  by_cases h : count < 3
  · rw [if_pos h, if_pos h]; rfl
  · rw [if_neg h, if_neg h, for_emit_length count 2 0 3 _ (fun j => ?_)]
    · omega
    · rfl

theorem rewrite_polygon_line_length (idx : Option (List Nat)) (base count : Nat) :
    (rewrite_polygon_line idx base count).length = if count < 2 then 0 else 2 * count := by
  unfold rewrite_polygon_line
  by_cases h : count < 2
  · rw [if_pos h, if_pos h]; rfl
  · rw [if_neg h, if_neg h, List.length_append,
      for_emit_length count 1 0 2 _ (fun j => ?_)]
    · simp [emit_line]
      omega
    · rfl

theorem rewrite_indices_length (mode : PrimAssemblyState) (idx : Option (List Nat))
    (base n : Nat) :
    (rewrite_indices mode idx base n).length =
      expected_output_count mode.primitive_mode mode.polygon_mode n := by
  obtain ⟨pm, pmode, lp, fs⟩ := mode
  cases pm
  case PRIM_TYPE_POINTS => rfl
  case PRIM_TYPE_LINES => exact rewrite_lines_length idx base n lp
  case PRIM_TYPE_LINE_STRIP => exact rewrite_line_strip_length idx base n lp
  case PRIM_TYPE_LINE_LOOP => exact rewrite_line_loop_length idx base n lp
  case PRIM_TYPE_TRIANGLES => exact rewrite_triangles_length idx base n lp
  case PRIM_TYPE_TRIANGLE_STRIP => exact rewrite_triangle_strip_length idx base n lp
  case PRIM_TYPE_TRIANGLE_FAN => exact rewrite_triangle_fan_length idx base n lp
  case PRIM_TYPE_QUADS =>
    by_cases hp : pmode = POLY_MODE_LINE
    · simp [rewrite_indices, expected_output_count, hp, rewrite_quads_line_length]
    · simp [rewrite_indices, expected_output_count, hp, rewrite_quads_length]
  case PRIM_TYPE_QUAD_STRIP =>
    by_cases hp : pmode = POLY_MODE_LINE
    · simp [rewrite_indices, expected_output_count, hp, rewrite_quad_strip_line_length]
    · simp [rewrite_indices, expected_output_count, hp, rewrite_quad_strip_length]
  case PRIM_TYPE_POLYGON =>
    by_cases hp : pmode = POLY_MODE_LINE
    · simp [rewrite_indices, expected_output_count, hp, rewrite_polygon_line_length]
    · simp [rewrite_indices, expected_output_count, hp, rewrite_polygon_length]


theorem expected_le_max (t : ShaderPrimitiveMode) (p : ShaderPolygonMode) (n : Nat) :
    expected_output_count t p n ≤ max_output_indices t p n := by
  cases t <;> cases p <;> simp [expected_output_count, max_output_indices] <;>
    (try split_ifs) <;> omega

theorem max_output_zero_input (t : ShaderPrimitiveMode) (p : ShaderPolygonMode) :
    max_output_indices t p 0 = 0 := by
  cases t <;> cases p <;> rfl

theorem range_expansion_getD (start count i : Nat) (h : i < count) :
    (range_expansion start count).getD i 0 = (start + i) % 4294967296 := by
  unfold range_expansion
  rw [List.getD_eq_getElem?_getD, List.getElem?_map, List.getElem?_range h]
  simp

theorem idx_at_expansion (start count i : Nat) (h : i < count) :
    idx_at none i start = idx_at (some (range_expansion start count)) i 0 := by
  simp only [idx_at]
  rw [range_expansion_getD start count i h]

theorem range_expansion_length (start count : Nat) :
    (range_expansion start count).length = count := by
  simp [range_expansion]


theorem rewrite_lines_congr (idx idx2 : Option (List Nat)) (base base2 count : Nat)
    (lp : Bool) (h : ∀ i, i < count → idx_at idx i base = idx_at idx2 i base2) :
    rewrite_lines idx base count lp = rewrite_lines idx2 base2 count lp := by
  unfold rewrite_lines
  apply for_emit_congr
  intro i hi
  simp only [h i (by omega), h (i + 1) (by omega)]

theorem rewrite_line_strip_congr (idx idx2 : Option (List Nat)) (base base2 count : Nat)
    (lp : Bool) (h : ∀ i, i < count → idx_at idx i base = idx_at idx2 i base2) :
    rewrite_line_strip idx base count lp = rewrite_line_strip idx2 base2 count lp := by
  unfold rewrite_line_strip
  apply for_emit_congr
  intro i hi
  simp only [h i (by omega), h (i + 1) (by omega)]

theorem rewrite_line_loop_congr (idx idx2 : Option (List Nat)) (base base2 count : Nat)
    (lp : Bool) (h : ∀ i, i < count → idx_at idx i base = idx_at idx2 i base2) :
    rewrite_line_loop idx base count lp = rewrite_line_loop idx2 base2 count lp := by
  unfold rewrite_line_loop
  by_cases hc : count < 2
  · rw [if_pos hc, if_pos hc]
  · rw [if_neg hc, if_neg hc]
    have h1 := for_emit_congr count 1 0
      (fun i =>
        let v0 := idx_at idx i base
        let v1 := idx_at idx (i + 1) base
        let pv := if lp then v1 else v0
        emit_line_pv v0 v1 pv)
      (fun i =>
        let v0 := idx_at idx2 i base2
        let v1 := idx_at idx2 (i + 1) base2
        let pv := if lp then v1 else v0
        emit_line_pv v0 v1 pv)
      (fun i hi => by simp only [h i (by omega), h (i + 1) (by omega)])
    rw [h1, h (count - 1) (by omega), h 0 (by omega)]

theorem rewrite_triangles_congr (idx idx2 : Option (List Nat)) (base base2 count : Nat)
    (lp : Bool) (h : ∀ i, i < count → idx_at idx i base = idx_at idx2 i base2) :
    rewrite_triangles idx base count lp = rewrite_triangles idx2 base2 count lp := by
  unfold rewrite_triangles
  apply for_emit_congr
  intro i hi
  simp only [h i (by omega), h (i + 1) (by omega), h (i + 2) (by omega)]

theorem rewrite_triangle_strip_congr (idx idx2 : Option (List Nat)) (base base2 count : Nat)
    (lp : Bool) (h : ∀ i, i < count → idx_at idx i base = idx_at idx2 i base2) :
    rewrite_triangle_strip idx base count lp = rewrite_triangle_strip idx2 base2 count lp := by
  unfold rewrite_triangle_strip
  apply for_emit_congr
  intro i hi
  simp only [h i (by omega), h (i + 1) (by omega), h (i + 2) (by omega)]

theorem rewrite_triangle_fan_congr (idx idx2 : Option (List Nat)) (base base2 count : Nat)
    (lp : Bool) (h : ∀ i, i < count → idx_at idx i base = idx_at idx2 i base2) :
    rewrite_triangle_fan idx base count lp = rewrite_triangle_fan idx2 base2 count lp := by
  unfold rewrite_triangle_fan
  by_cases hc : count < 3
  · rw [if_pos hc, if_pos hc]
  · rw [if_neg hc, if_neg hc, h 0 (by omega)]
    apply for_emit_congr
    intro i hi
    simp only [h (i + 1) (by omega), h (i + 2) (by omega)]

theorem rewrite_quads_congr (idx idx2 : Option (List Nat)) (base base2 count : Nat)
    (fs : Bool) (h : ∀ i, i < count → idx_at idx i base = idx_at idx2 i base2) :
    rewrite_quads idx base count fs = rewrite_quads idx2 base2 count fs := by
  unfold rewrite_quads
  apply for_emit_congr
  intro i hi
  simp only [h i (by omega), h (i + 1) (by omega), h (i + 2) (by omega), h (i + 3) (by omega)]

theorem rewrite_quads_line_congr (idx idx2 : Option (List Nat)) (base base2 count : Nat)
    (h : ∀ i, i < count → idx_at idx i base = idx_at idx2 i base2) :
    rewrite_quads_line idx base count = rewrite_quads_line idx2 base2 count := by
  unfold rewrite_quads_line
  apply for_emit_congr
  intro i hi
  simp only [h i (by omega), h (i + 1) (by omega), h (i + 2) (by omega), h (i + 3) (by omega)]

theorem rewrite_quad_strip_congr (idx idx2 : Option (List Nat)) (base base2 count : Nat)
    (fs : Bool) (h : ∀ i, i < count → idx_at idx i base = idx_at idx2 i base2) :
    rewrite_quad_strip idx base count fs = rewrite_quad_strip idx2 base2 count fs := by
  unfold rewrite_quad_strip
  by_cases hc : count < 4
  · rw [if_pos hc, if_pos hc]
  · rw [if_neg hc, if_neg hc]
    apply for_emit_congr
    intro i hi
    simp only [h i (by omega), h (i + 1) (by omega), h (i + 2) (by omega), h (i + 3) (by omega)]

theorem rewrite_quad_strip_line_congr (idx idx2 : Option (List Nat)) (base base2 count : Nat)
    (h : ∀ i, i < count → idx_at idx i base = idx_at idx2 i base2) :
    rewrite_quad_strip_line idx base count = rewrite_quad_strip_line idx2 base2 count := by
  unfold rewrite_quad_strip_line
  by_cases hc : count < 4
  · rw [if_pos hc, if_pos hc]
  · rw [if_neg hc, if_neg hc]
    apply for_emit_congr
    intro i hi
    simp only [h i (by omega), h (i + 1) (by omega), h (i + 2) (by omega), h (i + 3) (by omega)]

theorem rewrite_polygon_congr (idx idx2 : Option (List Nat)) (base base2 count : Nat)
    (h : ∀ i, i < count → idx_at idx i base = idx_at idx2 i base2) :
    rewrite_polygon idx base count = rewrite_polygon idx2 base2 count := by
  unfold rewrite_polygon
  by_cases hc : count < 3
  · rw [if_pos hc, if_pos hc]
  · rw [if_neg hc, if_neg hc, h 0 (by omega)]
    apply for_emit_congr
    intro i hi
    simp only [h (i + 1) (by omega), h (i + 2) (by omega)]

theorem rewrite_polygon_line_congr (idx idx2 : Option (List Nat)) (base base2 count : Nat)
    (h : ∀ i, i < count → idx_at idx i base = idx_at idx2 i base2) :
    rewrite_polygon_line idx base count = rewrite_polygon_line idx2 base2 count := by
  unfold rewrite_polygon_line
  by_cases hc : count < 2
  · rw [if_pos hc, if_pos hc]
  · rw [if_neg hc, if_neg hc]
    have h1 := for_emit_congr count 1 0
      (fun i => emit_line (idx_at idx i base) (idx_at idx (i + 1) base))
      (fun i => emit_line (idx_at idx2 i base2) (idx_at idx2 (i + 1) base2))
      (fun i hi => by simp only [h i (by omega), h (i + 1) (by omega)])
    rw [h1, h (count - 1) (by omega), h 0 (by omega)]

theorem rewrite_indices_congr (mode : PrimAssemblyState) (idx idx2 : Option (List Nat))
    (base base2 n : Nat)
    (h : ∀ i, i < n → idx_at idx i base = idx_at idx2 i base2) :
    rewrite_indices mode idx base n = rewrite_indices mode idx2 base2 n := by
  obtain ⟨pm, pmode, lp, fs⟩ := mode
  cases pm
  case PRIM_TYPE_POINTS => rfl
  case PRIM_TYPE_LINES => exact rewrite_lines_congr idx idx2 base base2 n lp h
  case PRIM_TYPE_LINE_STRIP => exact rewrite_line_strip_congr idx idx2 base base2 n lp h
  case PRIM_TYPE_LINE_LOOP => exact rewrite_line_loop_congr idx idx2 base base2 n lp h
  case PRIM_TYPE_TRIANGLES => exact rewrite_triangles_congr idx idx2 base base2 n lp h
  case PRIM_TYPE_TRIANGLE_STRIP =>
    exact rewrite_triangle_strip_congr idx idx2 base base2 n lp h
  case PRIM_TYPE_TRIANGLE_FAN =>
    exact rewrite_triangle_fan_congr idx idx2 base base2 n lp h
  case PRIM_TYPE_QUADS =>
    by_cases hp : pmode = POLY_MODE_LINE
    · simp only [rewrite_indices, hp, if_pos]
      exact rewrite_quads_line_congr idx idx2 base base2 n h
    · simp only [rewrite_indices, hp, if_neg, if_false]
      exact rewrite_quads_congr idx idx2 base base2 n fs h
  case PRIM_TYPE_QUAD_STRIP =>
    by_cases hp : pmode = POLY_MODE_LINE
    · simp only [rewrite_indices, hp, if_pos]
      exact rewrite_quad_strip_line_congr idx idx2 base base2 n h
    · simp only [rewrite_indices, hp, if_neg, if_false]
      exact rewrite_quad_strip_congr idx idx2 base base2 n fs h
  case PRIM_TYPE_POLYGON =>
    by_cases hp : pmode = POLY_MODE_LINE
    · simp only [rewrite_indices, hp, if_pos]
      exact rewrite_polygon_line_congr idx idx2 base base2 n h
    · simp only [rewrite_indices, hp, if_neg, if_false]
      exact rewrite_polygon_congr idx idx2 base base2 n h

theorem rewrite_indices_null_expansion (mode : PrimAssemblyState) (start count : Nat) :
    rewrite_indices mode none start count =
      rewrite_indices mode (some (range_expansion start count)) 0 count :=
  rewrite_indices_congr mode none (some (range_expansion start count)) start 0 count
    (fun i hi => idx_at_expansion start count i hi)

theorem rewrite_indices_zero (mode : PrimAssemblyState) (idx : Option (List Nat))
    (base : Nat) : rewrite_indices mode idx base 0 = [] := by
  obtain ⟨pm, pmode, lp, fs⟩ := mode
  cases pm <;> cases pmode <;> rfl

theorem ensure_capacity_ge (buf : PrimRewriteBuf) (needed : Nat) :
    needed ≤ (ensure_capacity buf needed).capacity := by
  unfold ensure_capacity
  split
  · assumption
  · exact le_max_left _ _

theorem ranges_out_le (mode : PrimAssemblyState) :
    ∀ (starts counts : List Nat),
      (((starts.zip counts).map (fun sc =>
        if sc.2 = 0 then [] else rewrite_indices mode none sc.1 sc.2)).flatten).length ≤
      (counts.map (fun c =>
        max_output_indices mode.primitive_mode mode.polygon_mode c)).sum := by
  intro starts
  induction starts with
  | nil => intro counts; simp
  | cons s rest ih =>
    intro counts
    cases counts with
    | nil => simp
    | cons c crest =>
      simp only [List.zip_cons_cons, List.map_cons, List.flatten_cons, List.length_append,
        List.sum_cons]
      have h1 : (if c = 0 then ([] : List Nat) else rewrite_indices mode none s c).length ≤
          max_output_indices mode.primitive_mode mode.polygon_mode c := by
        by_cases h0 : c = 0
        · simp [h0]
        · rw [if_neg h0, rewrite_indices_length]
          exact expected_le_max _ _ _
      exact Nat.add_le_add h1 (ih crest)

theorem ROUND_UP_dvd (n d : Nat) : d ∣ ROUND_UP n d :=
  ⟨(n + d - 1) / d, Nat.mul_comm ((n + d - 1) / d) d⟩

theorem ROUND_UP_of_dvd (m d : Nat) (hd : 0 < d) (h : d ∣ m) : ROUND_UP m d = m := by
  obtain ⟨k, rfl⟩ := h
  unfold ROUND_UP
  rcases Nat.eq_zero_or_pos k with rfl | hk
  · have h0 : (d * 0 + d - 1) / d = 0 := by
      apply Nat.div_eq_of_lt
      omega
    rw [h0, Nat.zero_mul, Nat.mul_zero]
  · have h1 : d * k + d - 1 = d * k + (d - 1) := by omega
    rw [h1, Nat.mul_add_div hd, Nat.div_eq_of_lt (by omega)]
    ring

theorem append_writes_aligned (d : Nat) (hd : 0 < d) :
    ∀ (sizes : List Nat) (off : Nat), d ∣ off →
      (∀ s ∈ sizes.dropLast, d ∣ s) →
      append_writes off sizes d = consecutive_writes off sizes ∧
      append_final_offset off sizes d = off + sizes.sum := by
  intro sizes
  induction sizes with
  | nil => intro off h1 h2; exact ⟨rfl, by simp [append_final_offset]⟩
  | cons s rest ih =>
    intro off hoff hdiv
    have hR : ROUND_UP off d = off := ROUND_UP_of_dvd off d hd hoff
    cases rest with
    | nil =>
      refine ⟨?_, ?_⟩
      · simp [append_writes, consecutive_writes, hR]
      · simp [append_final_offset, hR]
    | cons a t =>
      have hs : d ∣ s := hdiv s (by simp [List.dropLast])
      have hdiv2 : ∀ x ∈ (a :: t).dropLast, d ∣ x := by
        intro x hx
        exact hdiv x (by simp [List.dropLast, hx])
      obtain ⟨ihw, ihf⟩ := ih (off + s) (Nat.dvd_add hoff hs) hdiv2
      refine ⟨?_, ?_⟩
      · rw [append_writes, consecutive_writes]
        simp only [hR, ihw]
      · rw [append_final_offset, hR, ihf]
        simp [List.sum_cons]
        omega


theorem fail_unwind_step_allocated (s : VkBufState) (r x : BufferRole) :
    (fail_unwind_step s r).allocated x = if x = r then false else s.allocated x := by
  unfold fail_unwind_step destroy_buffer
  by_cases hm : s.mapped r <;> by_cases ha : s.allocated r <;>
    simp [hm, ha] <;>
    by_cases hx : x = r <;> simp [hx, ha]

theorem fail_unwind_step_mapped (s : VkBufState) (r x : BufferRole) :
    (fail_unwind_step s r).mapped x = if x = r then false else s.mapped x := by
  unfold fail_unwind_step destroy_buffer
  by_cases hm : s.mapped r <;> by_cases ha : s.allocated r <;>
    simp [hm, ha] <;>
    by_cases hx : x = r <;> simp [hx, hm]

theorem fail_unwind_step_bitmap (s : VkBufState) (r : BufferRole) :
    (fail_unwind_step s r).bitmap = s.bitmap := by
  unfold fail_unwind_step destroy_buffer
  by_cases hm : s.mapped r <;> by_cases ha : s.allocated r <;> simp [hm, ha]

theorem foldl_unwind_allocated :
    ∀ (roles : List BufferRole) (s : VkBufState) (x : BufferRole),
      ((roles.foldl fail_unwind_step s).allocated x) =
        if x ∈ roles then false else s.allocated x := by
  intro roles
  induction roles with
  | nil => intro s x; simp
  | cons r rest ih =>
    intro s x
    rw [List.foldl_cons, ih, fail_unwind_step_allocated]
    by_cases h1 : x ∈ rest <;> by_cases h2 : x = r <;> simp [h1, h2]

theorem foldl_unwind_mapped :
    ∀ (roles : List BufferRole) (s : VkBufState) (x : BufferRole),
      ((roles.foldl fail_unwind_step s).mapped x) =
        if x ∈ roles then false else s.mapped x := by
  intro roles
  induction roles with
  | nil => intro s x; simp
  | cons r rest ih =>
    intro s x
    rw [List.foldl_cons, ih, fail_unwind_step_mapped]
    by_cases h1 : x ∈ rest <;> by_cases h2 : x = r <;> simp [h1, h2]

theorem mem_buffer_order (x : BufferRole) : x ∈ buffer_order := by
  cases x <;> decide

theorem fail_unwind_clean (s : VkBufState) :
    (∀ r, (fail_unwind s).allocated r = false) ∧
    (∀ r, (fail_unwind s).mapped r = false) ∧
    (fail_unwind s).bitmap = false := by
  refine ⟨?_, ?_, rfl⟩
  · intro r
    show ((buffer_order.foldl fail_unwind_step s).allocated r) = false
    rw [foldl_unwind_allocated, if_pos (mem_buffer_order r)]
  · intro r
    show ((buffer_order.foldl fail_unwind_step s).mapped r) = false
    rw [foldl_unwind_mapped, if_pos (mem_buffer_order r)]

/-!
Claim theorems.
-/

/-- C4: `needs_rewrite` is false for `Points`; for `Lines` and `Triangles` it
equals `last_provoking && flat_shading`; for every other topology it is true —
for every fill mode and both flags, exhaustively. -/
theorem needs_rewrite_matrix :
    (∀ (f : ShaderPolygonMode) (lp fs : Bool),
      needs_rewrite ⟨PRIM_TYPE_POINTS, f, lp, fs⟩ = false) ∧
    (∀ (f : ShaderPolygonMode) (lp fs : Bool),
      needs_rewrite ⟨PRIM_TYPE_LINES, f, lp, fs⟩ = (lp && fs)) ∧
    (∀ (f : ShaderPolygonMode) (lp fs : Bool),
      needs_rewrite ⟨PRIM_TYPE_TRIANGLES, f, lp, fs⟩ = (lp && fs)) ∧
    (∀ (f : ShaderPolygonMode) (lp fs : Bool),
      needs_rewrite ⟨PRIM_TYPE_LINE_STRIP, f, lp, fs⟩ = true) ∧
    (∀ (f : ShaderPolygonMode) (lp fs : Bool),
      needs_rewrite ⟨PRIM_TYPE_LINE_LOOP, f, lp, fs⟩ = true) ∧
    (∀ (f : ShaderPolygonMode) (lp fs : Bool),
      needs_rewrite ⟨PRIM_TYPE_TRIANGLE_STRIP, f, lp, fs⟩ = true) ∧
    (∀ (f : ShaderPolygonMode) (lp fs : Bool),
      needs_rewrite ⟨PRIM_TYPE_TRIANGLE_FAN, f, lp, fs⟩ = true) ∧
    (∀ (f : ShaderPolygonMode) (lp fs : Bool),
      needs_rewrite ⟨PRIM_TYPE_QUADS, f, lp, fs⟩ = true) ∧
    (∀ (f : ShaderPolygonMode) (lp fs : Bool),
      needs_rewrite ⟨PRIM_TYPE_QUAD_STRIP, f, lp, fs⟩ = true) ∧
    (∀ (f : ShaderPolygonMode) (lp fs : Bool),
      needs_rewrite ⟨PRIM_TYPE_POLYGON, f, lp, fs⟩ = true) := by
  decide

/-- C6: `Quads` with `fillMode = Fill` on input `(0,1,2,3)` emits
`(0,1,2),(0,2,3)` when not flat-shaded and `(3,0,1),(3,1,2)` when flat-shaded
(the last vertex of the quad first in both triangles), for either provoking
convention. -/
theorem quads_diagonal_example :
    ∀ (lp : Bool) (buf : PrimRewriteBuf),
      (pgraph_prim_rewrite_indexed buf ⟨PRIM_TYPE_QUADS, POLY_MODE_FILL, lp, false⟩
        [0, 1, 2, 3]).1.out = [0, 1, 2, 0, 2, 3] ∧
      (pgraph_prim_rewrite_indexed buf ⟨PRIM_TYPE_QUADS, POLY_MODE_FILL, lp, true⟩
        [0, 1, 2, 3]).1.out = [3, 0, 1, 3, 1, 2] := by
  intro lp buf
  exact ⟨rfl, rfl⟩

/-- C7 (counterexample): `TriangleFan` on `(10,20,30,40)` with
`lastVertexProvoking = false` emits the sequence `20,30,10,30,40,10`, not the
claimed `10,20,30,10,30,40`. -/
theorem triangle_fan_sequence_cex :
    (pgraph_prim_rewrite_indexed ⟨[], 0⟩
      ⟨PRIM_TYPE_TRIANGLE_FAN, POLY_MODE_FILL, false, false⟩
      [10, 20, 30, 40]).1.out = [20, 30, 10, 30, 40, 10] ∧
    ([20, 30, 10, 30, 40, 10] : List Nat) ≠ [10, 20, 30, 10, 30, 40] := by
  decide

/-- C7 (amended): `TriangleFan` on `(10,20,30,40)` with
`lastVertexProvoking = false` yields the triangles `(10,20,30)` and
`(10,30,40)` each rotated so its provoking vertex (the second vertex of the
fan triangle under the first-vertex convention) comes first: the emitted
sequence is `20,30,10,30,40,10`, for either value of `flatShading`. -/
theorem triangle_fan_rotation :
    ∀ (fs : Bool) (buf : PrimRewriteBuf),
      (pgraph_prim_rewrite_indexed buf
        ⟨PRIM_TYPE_TRIANGLE_FAN, POLY_MODE_FILL, false, fs⟩
        [10, 20, 30, 40]).1.out = [20, 30, 10, 30, 40, 10] ∧
      ([20, 30, 10] : List Nat) = List.rotate [10, 20, 30] 1 ∧
      ([30, 40, 10] : List Nat) = List.rotate [10, 30, 40] 1 := by
  intro fs buf
  exact ⟨rfl, by decide, by decide⟩

/-- C10: on the flat-shaded fill path for `Quads` and `QuadStrip` the
`lastVertexProvoking` flag has no effect on the output, because each window
`(v0,v1,v2,v3)` unconditionally emits its last vertex `v3` first in both
triangles. -/
theorem quad_flat_ignores_provoking :
    (∀ (buf : PrimRewriteBuf) (l : List Nat) (lp1 lp2 : Bool),
      pgraph_prim_rewrite_indexed buf ⟨PRIM_TYPE_QUADS, POLY_MODE_FILL, lp1, true⟩ l =
      pgraph_prim_rewrite_indexed buf ⟨PRIM_TYPE_QUADS, POLY_MODE_FILL, lp2, true⟩ l) ∧
    (∀ (buf : PrimRewriteBuf) (l : List Nat) (lp1 lp2 : Bool),
      pgraph_prim_rewrite_indexed buf
        ⟨PRIM_TYPE_QUAD_STRIP, POLY_MODE_FILL, lp1, true⟩ l =
      pgraph_prim_rewrite_indexed buf
        ⟨PRIM_TYPE_QUAD_STRIP, POLY_MODE_FILL, lp2, true⟩ l) ∧
    (∀ a b c d : Nat,
      rewrite_quads (some [a, b, c, d]) 0 4 true = [d, a, b, d, b, c]) ∧
    (∀ a b c d : Nat,
      rewrite_quad_strip (some [a, b, c, d]) 0 4 true = [d, c, a, d, a, b]) := by
  refine ⟨fun buf l lp1 lp2 => rfl, fun buf l lp1 lp2 => rfl,
    fun a b c d => rfl, fun a b c d => rfl⟩

/-- C2 (code bug): with buffer size 5, bump offset 0, alignment 4 and chunk
sizes `[1,4]`, `pgraph_vk_buffer_has_space_for` accepts the total size 5, yet
the append loop re-aligns before the second chunk and writes bytes `[4,8)`,
past the end of the buffer, leaving the bump offset at 8 > 5. -/
theorem append_oob_despite_has_space_for :
    pgraph_vk_buffer_has_space_for ⟨5, 0⟩ (1 + 4) 4 = true ∧
    (pgraph_vk_append_to_buffer ⟨5, 0⟩ [1, 4] 4).2.2 = [(0, 1), (4, 4)] ∧
    4 + 4 > 5 ∧
    (pgraph_vk_append_to_buffer ⟨5, 0⟩ [1, 4] 4).2.1.buffer_offset = 8 := by
  decide

/-- C3 (counterexample): with bump offset 0, alignment 4 and chunk sizes
`[1,1]`, the final bump offset is 5 — the loop aligns before every chunk,
inserting padding between chunks — while "align once then advance by each
chunk size" would give `roundUp(0,4) + 2 = 2`. -/
theorem append_realigns_each_chunk_cex :
    (pgraph_vk_append_to_buffer ⟨100, 0⟩ [1, 1] 4).2.1.buffer_offset = 5 ∧
    ROUND_UP 0 4 + (1 + 1) = 2 ∧ (5 : Nat) ≠ 2 ∧
    (pgraph_vk_append_to_buffer ⟨100, 0⟩ [1, 1] 4).2.2 = [(0, 1), (4, 1)] ∧
    consecutive_writes (ROUND_UP 0 4) [1, 1] = [(0, 1), (1, 1)] := by
  decide

/-- C5 (counterexample): for `Lines` on three indices the rewrite emits 2
indices while the maximum bound is 3, and the output is not empty; likewise
for `Triangles` on four indices (3 emitted, bound 4).  So the output count
does not equal the bound for `Lines`/`Triangles` whenever the input count is
not a multiple of the primitive size. -/
theorem output_count_exact_bound_cex :
    ((pgraph_prim_rewrite_indexed ⟨[], 0⟩ ⟨PRIM_TYPE_LINES, POLY_MODE_FILL, true, true⟩
        [5, 6, 7]).1.out.length = 2 ∧
      max_output_indices PRIM_TYPE_LINES POLY_MODE_FILL 3 = 3 ∧
      (pgraph_prim_rewrite_indexed ⟨[], 0⟩ ⟨PRIM_TYPE_LINES, POLY_MODE_FILL, true, true⟩
        [5, 6, 7]).1.out ≠ []) ∧
    ((pgraph_prim_rewrite_indexed ⟨[], 0⟩
        ⟨PRIM_TYPE_TRIANGLES, POLY_MODE_FILL, true, true⟩
        [0, 1, 2, 3]).1.out.length = 3 ∧
      max_output_indices PRIM_TYPE_TRIANGLES POLY_MODE_FILL 4 = 4 ∧
      (pgraph_prim_rewrite_indexed ⟨[], 0⟩
        ⟨PRIM_TYPE_TRIANGLES, POLY_MODE_FILL, true, true⟩
        [0, 1, 2, 3]).1.out ≠ []) := by
  decide

/-- C1 (counterexample): a `TriangleStrip` draw over the two ranges
`(0,3),(3,3)` restarts the strip at each range and emits 6 indices, while the
explicit-index entry point on the concatenated expansion `0..5` joins the
ranges into one strip and emits 12 — the two entry points disagree on
multi-range input. -/
theorem ranges_vs_indexed_concat_cex :
    (pgraph_prim_rewrite_ranges ⟨[], 0⟩
      ⟨PRIM_TYPE_TRIANGLE_STRIP, POLY_MODE_FILL, false, false⟩
      [0, 3] [3, 3]).1.out = [0, 1, 2, 3, 4, 5] ∧
    (pgraph_prim_rewrite_indexed ⟨[], 0⟩
      ⟨PRIM_TYPE_TRIANGLE_STRIP, POLY_MODE_FILL, false, false⟩
      [0, 1, 2, 3, 4, 5]).1.out = [0, 1, 2, 1, 3, 2, 2, 3, 4, 3, 5, 4] ∧
    (pgraph_prim_rewrite_ranges ⟨[], 0⟩
      ⟨PRIM_TYPE_TRIANGLE_STRIP, POLY_MODE_FILL, false, false⟩
      [0, 3] [3, 3]).1 ≠
    (pgraph_prim_rewrite_indexed ⟨[], 0⟩
      ⟨PRIM_TYPE_TRIANGLE_STRIP, POLY_MODE_FILL, false, false⟩
      [0, 1, 2, 3, 4, 5]).1 := by
  decide


/-- C1 (amended): each range is rewritten independently (a range boundary acts
as a primitive restart), so the ranges-based output is the concatenation of
the per-range rewrites of each expanded range — not the rewrite of the
concatenated expansion.  For a single range `(start, count)` — in particular
`(0, N)` versus explicit indices `0..N-1` — the two entry points agree
exactly. -/
theorem ranges_single_range_equiv :
    (∀ (mode : PrimAssemblyState) (starts counts : List Nat),
      ((starts.zip counts).map (fun sc =>
          if sc.2 = 0 then [] else rewrite_indices mode none sc.1 sc.2)).flatten =
        ((starts.zip counts).map (fun sc =>
          rewrite_indices mode (some (range_expansion sc.1 sc.2)) 0 sc.2)).flatten) ∧
    (∀ (buf : PrimRewriteBuf) (mode : PrimAssemblyState) (start count : Nat),
      pgraph_prim_rewrite_ranges buf mode [start] [count] =
        pgraph_prim_rewrite_indexed buf mode (range_expansion start count)) := by
  constructor
  · intro mode starts counts
    congr 1
    apply List.map_congr_left
    intro sc hsc
    by_cases h0 : sc.2 = 0
    · rw [if_pos h0, h0, rewrite_indices_zero]
    · rw [if_neg h0, rewrite_indices_null_expansion]
  · intro buf mode start count
    have hlen : (range_expansion start count).length = count :=
      range_expansion_length start count
    simp only [pgraph_prim_rewrite_ranges, pgraph_prim_rewrite_indexed, hlen,
      List.map_cons, List.map_nil, List.sum_cons, List.sum_nil, Nat.add_zero,
      List.zip_cons_cons, List.zip_nil_right, List.flatten_cons, List.flatten_nil,
      List.append_nil]
    by_cases hn : needs_rewrite mode
    · simp only [hn, not_true_eq_false, if_false, Bool.not_true]
      by_cases hm : max_output_indices mode.primitive_mode mode.polygon_mode count = 0
      · simp [hm]
      · have hc0 : count ≠ 0 := by
          intro h0
          rw [h0, max_output_zero_input] at hm
          exact hm rfl
        simp only [hm, if_neg, if_false]
        rw [if_neg hc0, rewrite_indices_null_expansion]
    · simp [hn]

/-- C3 (amended): `append` aligns the bump offset before every chunk, not just
once.  It returns `roundUp(oldOffset, alignment)`; when every chunk except
possibly the last has a size that is a multiple of the alignment (in
particular for a single chunk, or alignment-sized chunks), the chunks land
consecutively with no internal padding and the final bump offset equals
`roundUp(oldOffset, alignment) + Σ sizes`. -/
theorem append_to_buffer_spec (b : StorageBuffer) (sizes : List Nat) (alignment : Nat)
    (hal : 0 < alignment) (hne : sizes ≠ [])
    (hdiv : ∀ s ∈ sizes.dropLast, alignment ∣ s) :
    (pgraph_vk_append_to_buffer b sizes alignment).1 =
      ROUND_UP b.buffer_offset alignment ∧
    (pgraph_vk_append_to_buffer b sizes alignment).2.2 =
      consecutive_writes (ROUND_UP b.buffer_offset alignment) sizes ∧
    (pgraph_vk_append_to_buffer b sizes alignment).2.1.buffer_offset =
      ROUND_UP b.buffer_offset alignment + sizes.sum := by
  cases sizes with
  | nil => exact absurd rfl hne
  | cons s rest =>
    refine ⟨rfl, ?_, ?_⟩
    · show append_writes b.buffer_offset (s :: rest) alignment =
        consecutive_writes (ROUND_UP b.buffer_offset alignment) (s :: rest)
      rw [append_writes, consecutive_writes]
      cases rest with
      | nil => rfl
      | cons a t =>
        have hs : alignment ∣ s := hdiv s (by simp [List.dropLast])
        have hRs : alignment ∣ ROUND_UP b.buffer_offset alignment + s :=
          Nat.dvd_add (ROUND_UP_dvd _ _) hs
        have hdiv2 : ∀ x ∈ (a :: t).dropLast, alignment ∣ x := by
          intro x hx
          exact hdiv x (by simp [List.dropLast, hx])
        exact congrArg _ ((append_writes_aligned alignment hal (a :: t)
          (ROUND_UP b.buffer_offset alignment + s) hRs hdiv2).1)
    · show append_final_offset b.buffer_offset (s :: rest) alignment =
        ROUND_UP b.buffer_offset alignment + (s :: rest).sum
      rw [append_final_offset]
      cases rest with
      | nil =>
        simp [append_final_offset]
      | cons a t =>
        have hs : alignment ∣ s := hdiv s (by simp [List.dropLast])
        have hRs : alignment ∣ ROUND_UP b.buffer_offset alignment + s :=
          Nat.dvd_add (ROUND_UP_dvd _ _) hs
        have hdiv2 : ∀ x ∈ (a :: t).dropLast, alignment ∣ x := by
          intro x hx
          exact hdiv x (by simp [List.dropLast, hx])
        rw [(append_writes_aligned alignment hal (a :: t)
          (ROUND_UP b.buffer_offset alignment + s) hRs hdiv2).2]
        simp [List.sum_cons]
        omega

/-- Witness for the amended C3 theorem at buffer size 100, bump offset 3,
chunk sizes `[4, 2]`, alignment 4. -/
theorem append_to_buffer_spec_witness :
    (pgraph_vk_append_to_buffer ⟨100, 3⟩ [4, 2] 4).1 = 4 ∧
    (pgraph_vk_append_to_buffer ⟨100, 3⟩ [4, 2] 4).2.2 = [(4, 4), (8, 2)] ∧
    (pgraph_vk_append_to_buffer ⟨100, 3⟩ [4, 2] 4).2.1.buffer_offset = 10 := by
  have h := append_to_buffer_spec ⟨100, 3⟩ [4, 2] 4 (by decide) (by decide) (by decide)
  exact ⟨h.1, h.2.1.trans (by decide), h.2.2.trans (by decide)⟩


/-- C5 (amended): the number of output indices never exceeds
`max_output_indices`; the exact output count is the closed form
`expected_output_count`, which equals the bound for `Quads`, `QuadStrip` and
all loop/strip/fan/polygon topologies (for the latter the bound is zero below
the minimum input threshold, where the output is exactly empty), while for
`Lines` and `Triangles` it is the input count rounded down to a multiple of
2 (resp. 3), so it equals the bound exactly when the input count is such a
multiple — the trailing partial primitive is dropped. -/
theorem output_count_bounds :
    (∀ (buf : PrimRewriteBuf) (mode : PrimAssemblyState) (l : List Nat),
      ((pgraph_prim_rewrite_indexed buf mode l).1.out).length ≤
        max_output_indices mode.primitive_mode mode.polygon_mode l.length) ∧
    (∀ (mode : PrimAssemblyState) (idx : Option (List Nat)) (base n : Nat),
      (rewrite_indices mode idx base n).length =
        expected_output_count mode.primitive_mode mode.polygon_mode n) ∧
    (∀ (p : ShaderPolygonMode) (n : Nat),
      expected_output_count PRIM_TYPE_QUADS p n =
        max_output_indices PRIM_TYPE_QUADS p n) ∧
    (∀ (p : ShaderPolygonMode) (n : Nat),
      expected_output_count PRIM_TYPE_QUAD_STRIP p n =
        max_output_indices PRIM_TYPE_QUAD_STRIP p n) ∧
    (∀ (p : ShaderPolygonMode) (n : Nat),
      expected_output_count PRIM_TYPE_LINE_STRIP p n =
        max_output_indices PRIM_TYPE_LINE_STRIP p n) ∧
    (∀ (p : ShaderPolygonMode) (n : Nat),
      expected_output_count PRIM_TYPE_LINE_LOOP p n =
        max_output_indices PRIM_TYPE_LINE_LOOP p n) ∧
    (∀ (p : ShaderPolygonMode) (n : Nat),
      expected_output_count PRIM_TYPE_TRIANGLE_STRIP p n =
        max_output_indices PRIM_TYPE_TRIANGLE_STRIP p n) ∧
    (∀ (p : ShaderPolygonMode) (n : Nat),
      expected_output_count PRIM_TYPE_TRIANGLE_FAN p n =
        max_output_indices PRIM_TYPE_TRIANGLE_FAN p n) ∧
    (∀ (p : ShaderPolygonMode) (n : Nat),
      expected_output_count PRIM_TYPE_POLYGON p n =
        max_output_indices PRIM_TYPE_POLYGON p n) ∧
    (∀ (p : ShaderPolygonMode) (n : Nat),
      (expected_output_count PRIM_TYPE_LINES p n =
        max_output_indices PRIM_TYPE_LINES p n) ↔ n % 2 = 0) ∧
    (∀ (p : ShaderPolygonMode) (n : Nat),
      (expected_output_count PRIM_TYPE_TRIANGLES p n =
        max_output_indices PRIM_TYPE_TRIANGLES p n) ↔ n % 3 = 0) := by
  refine ⟨?_, rewrite_indices_length, ?_, ?_, ?_, ?_, ?_, ?_, ?_, ?_, ?_⟩
  · intro buf mode l
    by_cases hn : needs_rewrite mode
    · by_cases hm : max_output_indices mode.primitive_mode mode.polygon_mode l.length = 0
      · simp [pgraph_prim_rewrite_indexed, hn, hm]
      · have hres : (pgraph_prim_rewrite_indexed buf mode l).1.out =
            rewrite_indices mode (some l) 0 l.length := by
          simp [pgraph_prim_rewrite_indexed, hn, hm]
        rw [hres, rewrite_indices_length]
        exact expected_le_max _ _ _
    · simp [pgraph_prim_rewrite_indexed, hn]
  all_goals
    intro p n
  all_goals
    cases p <;> simp [expected_output_count, max_output_indices] <;>
      (try split_ifs) <;> omega

/-- C8: both entry points return the empty result (zero count, null data)
exactly when `needs_rewrite` is false or the computed maximum output size is
zero; otherwise the data pointer is set, the result is exactly the emitted
index sequence, that sequence is the prefix of the scratch buffer of the
result's length, and it fits within the ensured scratch capacity. -/
theorem rewrite_empty_result_characterization :
    (∀ (buf : PrimRewriteBuf) (mode : PrimAssemblyState) (l : List Nat),
      (needs_rewrite mode = false ∨
        max_output_indices mode.primitive_mode mode.polygon_mode l.length = 0) →
      (pgraph_prim_rewrite_indexed buf mode l).1 = ⟨false, []⟩) ∧
    (∀ (buf : PrimRewriteBuf) (mode : PrimAssemblyState) (l : List Nat),
      needs_rewrite mode = true →
      max_output_indices mode.primitive_mode mode.polygon_mode l.length ≠ 0 →
      (pgraph_prim_rewrite_indexed buf mode l).1.hasData = true ∧
      (pgraph_prim_rewrite_indexed buf mode l).1.out =
        rewrite_indices mode (some l) 0 l.length ∧
      (pgraph_prim_rewrite_indexed buf mode l).2.data.take
          (pgraph_prim_rewrite_indexed buf mode l).1.out.length =
        (pgraph_prim_rewrite_indexed buf mode l).1.out ∧
      (pgraph_prim_rewrite_indexed buf mode l).1.out.length ≤
        (pgraph_prim_rewrite_indexed buf mode l).2.capacity) ∧
    (∀ (buf : PrimRewriteBuf) (mode : PrimAssemblyState) (starts counts : List Nat),
      (needs_rewrite mode = false ∨
        (counts.map (fun c =>
          max_output_indices mode.primitive_mode mode.polygon_mode c)).sum = 0) →
      (pgraph_prim_rewrite_ranges buf mode starts counts).1 = ⟨false, []⟩) ∧
    (∀ (buf : PrimRewriteBuf) (mode : PrimAssemblyState) (starts counts : List Nat),
      needs_rewrite mode = true →
      (counts.map (fun c =>
        max_output_indices mode.primitive_mode mode.polygon_mode c)).sum ≠ 0 →
      (pgraph_prim_rewrite_ranges buf mode starts counts).1.hasData = true ∧
      (pgraph_prim_rewrite_ranges buf mode starts counts).1.out =
        ((starts.zip counts).map (fun sc =>
          if sc.2 = 0 then [] else rewrite_indices mode none sc.1 sc.2)).flatten ∧
      (pgraph_prim_rewrite_ranges buf mode starts counts).2.data.take
          (pgraph_prim_rewrite_ranges buf mode starts counts).1.out.length =
        (pgraph_prim_rewrite_ranges buf mode starts counts).1.out ∧
      (pgraph_prim_rewrite_ranges buf mode starts counts).1.out.length ≤
        (pgraph_prim_rewrite_ranges buf mode starts counts).2.capacity) := by
  refine ⟨?_, ?_, ?_, ?_⟩
  · intro buf mode l h
    rcases h with h | h <;> by_cases hn : needs_rewrite mode <;>
      simp [pgraph_prim_rewrite_indexed, h, hn]
  · intro buf mode l hn hm
    have hres : pgraph_prim_rewrite_indexed buf mode l =
        (⟨true, rewrite_indices mode (some l) 0 l.length⟩,
         ⟨rewrite_indices mode (some l) 0 l.length ++
            ((ensure_capacity buf (max_output_indices mode.primitive_mode
              mode.polygon_mode l.length)).data.drop
                (rewrite_indices mode (some l) 0 l.length).length),
          (ensure_capacity buf (max_output_indices mode.primitive_mode
            mode.polygon_mode l.length)).capacity⟩) := by
      simp [pgraph_prim_rewrite_indexed, hn, hm]
    rw [hres]
    refine ⟨rfl, rfl, ?_, ?_⟩
    · exact List.take_left _ _
    · rw [rewrite_indices_length]
      exact le_trans (expected_le_max _ _ _) (ensure_capacity_ge _ _)
  · intro buf mode starts counts h
    rcases h with h | h <;> by_cases hn : needs_rewrite mode <;>
      simp [pgraph_prim_rewrite_ranges, h, hn]
  · intro buf mode starts counts hn hm
    have hres : pgraph_prim_rewrite_ranges buf mode starts counts =
        (⟨true, ((starts.zip counts).map (fun sc =>
            if sc.2 = 0 then [] else rewrite_indices mode none sc.1 sc.2)).flatten⟩,
         ⟨((starts.zip counts).map (fun sc =>
            if sc.2 = 0 then [] else rewrite_indices mode none sc.1 sc.2)).flatten ++
            ((ensure_capacity buf ((counts.map (fun c => max_output_indices
              mode.primitive_mode mode.polygon_mode c)).sum)).data.drop
                (((starts.zip counts).map (fun sc =>
                  if sc.2 = 0 then [] else rewrite_indices mode none sc.1 sc.2)).flatten).length),
          (ensure_capacity buf ((counts.map (fun c => max_output_indices
            mode.primitive_mode mode.polygon_mode c)).sum)).capacity⟩) := by
      simp [pgraph_prim_rewrite_ranges, hn, hm]
    rw [hres]
    refine ⟨rfl, rfl, ?_, ?_⟩
    · exact List.take_left _ _
    · exact le_trans (ranges_out_le mode starts counts) (ensure_capacity_ge _ _)

/-- Witness for the C8 theorem: `Points` never rewrites (empty result with
null data), and a quad rewrite returns a populated view. -/
theorem rewrite_empty_result_characterization_witness :
    (pgraph_prim_rewrite_indexed ⟨[], 0⟩
      ⟨PRIM_TYPE_POINTS, POLY_MODE_FILL, false, false⟩ []).1 = ⟨false, []⟩ ∧
    (pgraph_prim_rewrite_indexed ⟨[], 0⟩
      ⟨PRIM_TYPE_QUADS, POLY_MODE_FILL, false, false⟩ [0, 1, 2, 3]).1.hasData = true := by
  constructor
  · exact rewrite_empty_result_characterization.1 ⟨[], 0⟩
      ⟨PRIM_TYPE_POINTS, POLY_MODE_FILL, false, false⟩ [] (Or.inl rfl)
  · exact (rewrite_empty_result_characterization.2.1 ⟨[], 0⟩
      ⟨PRIM_TYPE_QUADS, POLY_MODE_FILL, false, false⟩ [0, 1, 2, 3] rfl (by decide)).1

/-- C9: whenever buffer-set creation fails — at the bitmap allocation, at any
buffer creation, or at any buffer mapping — the state after the call has no
buffer allocated, no buffer mapped, and no tracking bitmap: creation is
all-or-nothing. -/
theorem init_buffers_all_or_nothing (inj : FailureInjection)
    (h : (pgraph_vk_init_buffers inj).1 = false) :
    (∀ r, ((pgraph_vk_init_buffers inj).2).allocated r = false) ∧
    (∀ r, ((pgraph_vk_init_buffers inj).2).mapped r = false) ∧
    ((pgraph_vk_init_buffers inj).2).bitmap = false := by
  cases hbb : inj.bitmap_fails
  case true =>
    have hres : pgraph_vk_init_buffers inj =
        (false, ⟨fun _ => false, fun _ => false, false⟩) := by
      simp [pgraph_vk_init_buffers, hbb]
    rw [hres]
    exact ⟨fun r => rfl, fun r => rfl, rfl⟩
  case false =>
    rcases hc : create_loop inj
      ⟨fun _ => false, fun _ => false, true⟩ buffer_order with ⟨s2, b2⟩
    cases b2
    case false =>
      have hres : pgraph_vk_init_buffers inj = (false, fail_unwind s2) := by
        simp [pgraph_vk_init_buffers, hbb, hc]
      rw [hres]
      exact fail_unwind_clean s2
    case true =>
      rcases hml : map_loop inj s2 buffers_to_map with ⟨s3, b3⟩
      cases b3
      case false =>
        have hres : pgraph_vk_init_buffers inj = (false, fail_unwind s3) := by
          simp [pgraph_vk_init_buffers, hbb, hc, hml]
        rw [hres]
        exact fail_unwind_clean s3
      case true =>
        have hres : pgraph_vk_init_buffers inj = (true, s3) := by
          simp [pgraph_vk_init_buffers, hbb, hc, hml]
        rw [hres] at h
        exact absurd h (by simp)

/-- Witness for the C9 theorem: a failing bitmap allocation. -/
theorem init_buffers_all_or_nothing_witness :
    (∀ r, ((pgraph_vk_init_buffers
      ⟨fun _ => false, fun _ => false, true⟩).2).allocated r = false) ∧
    (∀ r, ((pgraph_vk_init_buffers
      ⟨fun _ => false, fun _ => false, true⟩).2).mapped r = false) ∧
    ((pgraph_vk_init_buffers ⟨fun _ => false, fun _ => false, true⟩).2).bitmap = false :=
  init_buffers_all_or_nothing ⟨fun _ => false, fun _ => false, true⟩ rfl

end NV2A
